import Mathlib

/-!
Verification of the PlantCare-Monitor extraction core
(`device_files/fetch_plant_data.py`).

Python text is modelled as `List Char`; Python byte chunks as `List Nat`.
`str.find(sub, start)` is modelled by `findFrom` (returning `Option Nat`
instead of `-1`), slicing `s[a:b]` by `pySlice`, `str.strip()` by `pyStrip`.
Loops whose Python form is `while True` are modelled by structural recursion
on a fuel argument that is instantiated with `text.length + 1`, an upper
bound on the number of iterations, since every iteration strictly advances
the scan position.  Exceptions the Python code can raise (`NameError` on a
read of an unassigned local, `AttributeError` on `None`/tuple attribute
access) are modelled with `Except PyError`.
-/

/-- The characters of a Lean string literal, used to transcribe Python text. -/
def pyStr (s : String) : List Char := s.data

/-- The whitespace characters recognised by Python `str.strip()` (ASCII part). -/
def pyIsSpace (c : Char) : Bool :=
  c == ' ' || c == '\t' || c == '\n' || c == '\x0d' || c == '\x0b' || c == '\x0c'

/-- Python `str.strip()`: drop leading and trailing whitespace. -/
def pyStrip (s : List Char) : List Char :=
  ((s.dropWhile pyIsSpace).reverse.dropWhile pyIsSpace).reverse

/-- Python slice `s[a:b]` (for the clamped, non-negative indices the source uses). -/
def pySlice (s : List Char) (a b : Nat) : List Char :=
  (s.drop a).take (b - a)

/-- `pat` occurs in `s` at position `i`. -/
def isPrefixAt (pat s : List Char) (i : Nat) : Bool :=
  pat.isPrefixOf (s.drop i)

/-- Python `s.find(pat, start)`: the least position `i ≥ start` where `pat`
occurs in `s`, `none` standing for Python's `-1`. -/
def findFrom (s pat : List Char) (start : Nat) : Option Nat :=
  (List.range (s.length + 1 - pat.length)).find? fun i =>
    decide (start ≤ i) && isPrefixAt pat s i

/-- Python `pat in s`. -/
def containsSub (s pat : List Char) : Bool :=
  (findFrom s pat 0).isSome

/-- Python `d[k] = v` on a dict modelled as an insertion-ordered association
list: an existing key keeps its position and gets the new value, a new key is
appended at the end. -/
def dictSet (d : List (List Char × List Char)) (k v : List Char) :
    List (List Char × List Char) :=
  if d.any (fun p => p.1 == k) then
    d.map (fun p => if p.1 == k then (k, v) else p)
  else d ++ [(k, v)]

/-- Python `s.split('/')[-1]`: the suffix after the last `'/'`. -/
def afterLastSlash (s : List Char) : List Char :=
  ((s.reverse.takeWhile (fun c => !(c == '/'))).reverse)

/-- Python `s.split('.')[0]`: the prefix before the first `'.'`. -/
def beforeFirstDot (s : List Char) : List Char :=
  s.takeWhile (fun c => !(c == '.'))

/-- The character loop of `strip_tags` (lines 85-95 of the source): a one-bit
in-tag state, `'<'` enters it, `'>'` leaves it, characters outside a tag are
kept. -/
def strip_core : List Char → Bool → List Char
  | [], _ => []
  | c :: rest, in_tag =>
    if c = '<' then strip_core rest true
    else if c = '>' then strip_core rest false
    else if in_tag then strip_core rest in_tag
    else c :: strip_core rest in_tag

/-- `strip_tags` (source lines 83-96): remove HTML tags, then `.strip()`. -/
def strip_tags (text : List Char) : List Char :=
  pyStrip (strip_core text false)

/-- `0x80 ≤ b ≤ 0xBF`: a UTF-8 continuation byte. -/
def isContByte (b : Nat) : Bool := decide (0x80 ≤ b) && decide (b ≤ 0xBF)

/-- Valid first continuation byte of a 3-byte sequence led by `b`
(strict UTF-8, as Python's `bytes.decode('utf-8')`: overlong encodings and
surrogate code points are rejected). -/
def cont3Ok (b c1 : Nat) : Bool :=
  (decide (b = 0xE0) && decide (0xA0 ≤ c1) && decide (c1 ≤ 0xBF)) ||
  (decide (0xE1 ≤ b) && decide (b ≤ 0xEC) && isContByte c1) ||
  (decide (b = 0xED) && decide (0x80 ≤ c1) && decide (c1 ≤ 0x9F)) ||
  (decide (0xEE ≤ b) && decide (b ≤ 0xEF) && isContByte c1)

/-- Valid first continuation byte of a 4-byte sequence led by `b`. -/
def cont4Ok (b c1 : Nat) : Bool :=
  (decide (b = 0xF0) && decide (0x90 ≤ c1) && decide (c1 ≤ 0xBF)) ||
  (decide (0xF1 ≤ b) && decide (b ≤ 0xF3) && isContByte c1) ||
  (decide (b = 0xF4) && decide (0x80 ≤ c1) && decide (c1 ≤ 0x8F))

/-- Strict UTF-8 decoding of a byte sequence, `none` on any invalid sequence;
this models Python `chunk.decode('utf-8')` with `UnicodeDecodeError` as
`none`. -/
def utf8Decode : List Nat → Option (List Char)
  | [] => some []
  | b :: rest =>
    if b < 0x80 then
      (utf8Decode rest).map (fun s => Char.ofNat b :: s)
    else if b ≤ 0xC1 then none
    else if b ≤ 0xDF then
      match rest with
      | c1 :: r2 =>
        if isContByte c1 then
          (utf8Decode r2).map (fun s => Char.ofNat ((b - 0xC0) * 64 + (c1 - 0x80)) :: s)
        else none
      | [] => none
    else if b ≤ 0xEF then
      match rest with
      | c1 :: c2 :: r3 =>
        if cont3Ok b c1 && isContByte c2 then
          (utf8Decode r3).map (fun s =>
            Char.ofNat ((b - 0xE0) * 4096 + (c1 - 0x80) * 64 + (c2 - 0x80)) :: s)
        else none
      | _ => none
    else if b ≤ 0xF4 then
      match rest with
      | c1 :: c2 :: c3 :: r4 =>
        if cont4Ok b c1 && isContByte c2 && isContByte c3 then
          (utf8Decode r4).map (fun s =>
            Char.ofNat ((b - 0xF0) * 262144 + (c1 - 0x80) * 4096 +
              (c2 - 0x80) * 64 + (c3 - 0x80)) :: s)
        else none
      | _ => none
    else none

/-- The UTF-8 bytes of an ASCII string, used to build concrete chunk streams. -/
def asciiBytes (s : String) : List Nat := s.data.map Char.toNat

/-- `process_plant_chunk` (source lines 23-29): decode a chunk as UTF-8 and
return it if it contains `"<h1"`, else `None`; a `UnicodeDecodeError` also
yields `None`. -/
def process_plant_chunk (chunk : List Nat) : Option (List Char) :=
  match utf8Decode chunk with
  | none => none
  | some chunk_str => if containsSub chunk_str (pyStr "<h1") then some chunk_str else none

/-- Observable events of `process_plant_page`: a `response.raw.read(4096)`
call returning the given bytes, and a `response.close()` call. -/
inductive FetchEv where
  | readChunk : List Nat → FetchEv
  | closeConn : FetchEv
deriving DecidableEq, Repr

/-- `process_plant_page` (source lines 32-47), instrumented with its event
trace.  The stream is the finite list of chunks that successive
`response.raw.read(4096)` calls return; once it is exhausted, `read` returns
the empty bytes `b""`, which the source's `if not chunk: break` treats as end
of stream.  Every exit path runs `response.close()`. -/
def process_plant_page_run : List (List Nat) → Option (List Char) × List FetchEv
  | [] => (none, [FetchEv.readChunk [], FetchEv.closeConn])
  | chunk :: rest =>
    if chunk = [] then (none, [FetchEv.readChunk chunk, FetchEv.closeConn])
    else
      match process_plant_chunk chunk with
      | some data => (some data, [FetchEv.readChunk chunk, FetchEv.closeConn])
      | none =>
        ((process_plant_page_run rest).1,
          FetchEv.readChunk chunk :: (process_plant_page_run rest).2)

/-- The value `process_plant_page` returns. -/
def process_plant_page (chunks : List (List Nat)) : Option (List Char) :=
  (process_plant_page_run chunks).1

/-- Whether an event is a `read` call. -/
def isReadEv : FetchEv → Bool
  | FetchEv.readChunk _ => true
  | FetchEv.closeConn => false

/-- Number of `response.raw.read` calls `process_plant_page` performs. -/
def numReads (chunks : List (List Nat)) : Nat :=
  ((process_plant_page_run chunks).2.filter isReadEv).length

/-- The scan loop of `find_plant_links` (source lines 63-74): repeatedly find
`search_str`, slice the 8 characters after it as a plant id, and resume the
search 8 characters past the match.  Each iteration advances the scan
position by at least `search_str.length + 8 > 0`, so `html.length + 1` fuel
covers every iteration the Python `while True` loop can perform. -/
def findIdsGo (html search_str : List Char) : Nat → Nat → List (List Char)
  | 0, _ => []
  | fuel + 1, start =>
    match findFrom html search_str start with
    | none => []
    | some p =>
      pySlice html (p + search_str.length) (p + search_str.length + 8) ::
        findIdsGo html search_str fuel (p + search_str.length + 8)

/-- `find_plant_links` (source lines 58-80): collect the plant ids following
each found occurrence of `f"{username}/plants/"`, then build one URL per id
with the username lowercased. -/
def find_plant_links (html username : List Char) : List (List Char) :=
  (findIdsGo html (username ++ pyStr "/plants/") (html.length + 1) 0).map
    fun plant_id =>
      pyStr "http://greg.app/" ++ username.map Char.toLower ++ pyStr "/plants/" ++
        plant_id ++ pyStr "/"

/-- All positions at which `pat` occurs in `s`, in increasing order. -/
def occList (s pat : List Char) : List Nat :=
  (List.range (s.length + 1 - pat.length)).filter fun i => isPrefixAt pat s i

/-- The number of occurrences of `pat` in `s`. -/
def countOcc (s pat : List Char) : Nat := (occList s pat).length

/-- `sepOK K l`: consecutive entries of `l` are at least `K` apart. -/
def sepOK (K : Nat) : List Nat → Bool
  | [] => true
  | [_] => true
  | a :: b :: t => decide (a + K ≤ b) && sepOK K (b :: t)

/-- Python runtime errors the extraction code can raise: `NameError` for
reading a never-assigned local (`return_data[identifier]` when no block ever
set `identifier`), `AttributeError` for attribute access on a value of the
wrong shape (`None.find`, `tuple.items`). -/
inductive PyError where
  | nameError : PyError
  | attributeError : PyError
deriving DecidableEq, Repr

/-- The two shapes of value `extract_plant_data` can return: its normal
dict (`record`, an insertion-ordered association list) and the literal
Python tuple `(None, None)` produced by its two early `return None, None`
statements (`nonePair`). -/
inductive ExtractResult where
  | record : List (List Char × List Char) → ExtractResult
  | nonePair : ExtractResult
deriving DecidableEq, Repr

instance {ε α : Type} [DecidableEq ε] [DecidableEq α] : DecidableEq (Except ε α)
  | Except.ok a, Except.ok b =>
    if h : a = b then Decidable.isTrue (congrArg Except.ok h)
    else Decidable.isFalse (fun hc => h (Except.ok.inj hc))
  | Except.error a, Except.error b =>
    if h : a = b then Decidable.isTrue (congrArg Except.error h)
    else Decidable.isFalse (fun hc => h (Except.error.inj hc))
  | Except.ok _, Except.error _ => Decidable.isFalse (fun hc => Except.noConfusion hc)
  | Except.error _, Except.ok _ => Decidable.isFalse (fun hc => Except.noConfusion hc)

/-- The `<article>` search loop of `extract_plant_data` (source lines
109-120): scan for `"<article"` occurrences until one whose opening tag (up
to its `>`) contains `id="plant-profile"`; return that tag's closing-`>`
position.  `none` covers both early `return None, None` paths (no article
tag, and no `>` after one).  Each iteration strictly advances `index`, so
`html.length + 1` fuel is an upper bound on the iterations. -/
def findArticleGo (html : List Char) : Nat → Nat → Option Nat
  | 0, _ => none
  | fuel + 1, index =>
    match findFrom html (pyStr "<article") index with
    | none => none
    | some start_index =>
      match findFrom html (pyStr ">") start_index with
      | none => none
      | some end_of_tag =>
        if containsSub (pySlice html start_index (end_of_tag + 1))
            (pyStr "id=\"plant-profile\"") then some end_of_tag
        else findArticleGo html fuel (end_of_tag + 1)

/-- The `<article>` search entry point, with sufficient fuel. -/
def findArticle (html : List Char) : Option Nat :=
  findArticleGo html (html.length + 1) 0

/-- The body of one iteration of the `plant-detail` loop (source lines
166-200), acting on the extracted `div_content`.  `identSt` models the
Python local variable `identifier`: `none` when it has never been assigned
(`'identifier' not in locals()`), `some v` when it holds `v` — possibly a
value left over from an earlier iteration, exactly as in the source.
Returns the updated `identifier` state and record, or the `NameError` raised
by `return_data[identifier] = value` when `identifier` was never assigned. -/
def detailBody (div_content : List Char) (identSt : Option (List Char))
    (rec0 : List (List Char × List Char)) :
    Except PyError (Option (List Char) × List (List Char × List Char)) :=
  match findFrom div_content (pyStr "<img") 0 with
  | none => Except.ok (identSt, rec0)
  | some img_tag_start =>
    match findFrom div_content (pyStr ">") img_tag_start with
    | none => Except.ok (identSt, rec0)
    | some img_tag_end =>
      let img_tag := pySlice div_content img_tag_start (img_tag_end + 1)
      let st1 : Option (List Char) :=
        match findFrom img_tag (pyStr "src=\"") 0 with
        | none => identSt
        | some src_pos =>
          match findFrom img_tag (pyStr "\"") (src_pos + 5) with
          | none => identSt
          | some src_end =>
            some (beforeFirstDot (afterLastSlash (pySlice img_tag (src_pos + 5) src_end)))
      let st2 : Option (List Char) :=
        if st1 = none ∨ st1 = some [] then
          match findFrom img_tag (pyStr "alt=\"") 0 with
          | none => st1
          | some alt_pos =>
            match findFrom img_tag (pyStr "\"") (alt_pos + 5) with
            | none => st1
            | some alt_end =>
              some ((pySlice img_tag (alt_pos + 5) alt_end).map
                fun c => if c = '-' then '_' else c)
        else st1
      match findFrom div_content (pyStr "<span>") 0 with
      | none => Except.ok (st2, rec0)
      | some span_pos =>
        match findFrom div_content (pyStr "</span>") (span_pos + 6) with
        | none => Except.ok (st2, rec0)
        | some span_end =>
          let value := pyStrip (pySlice div_content (span_pos + 6) span_end)
          match st2 with
          | none => Except.error PyError.nameError
          | some ident => Except.ok (st2, dictSet rec0 ident value)

/-- The `plant-detail` loop of `extract_plant_data` (source lines 154-203):
scan `html` from `search_index` for `'<div class="plant-detail">'` blocks and
fold `detailBody` over them.  As in the source, the initial `search_index`
is the cursor left by the heading extraction (an index into
`article_content`, applied to `html` — the source reuses the variable across
the two coordinate systems).  Each iteration strictly advances the position,
so `html.length + 1` fuel covers every iteration. -/
def detailLoopGo (html : List Char) :
    Nat → Option (List Char) → List (List Char × List Char) → Nat →
    Except PyError (List (List Char × List Char))
  | 0, _, rec0, _ => Except.ok rec0
  | fuel + 1, identSt, rec0, search_index =>
    match findFrom html (pyStr "<div class=\"plant-detail\">") search_index with
    | none => Except.ok rec0
    | some div_start =>
      match findFrom html (pyStr "</div>") div_start with
      | none => Except.ok rec0
      | some div_end =>
        match detailBody (pySlice html div_start div_end) identSt rec0 with
        | Except.error e => Except.error e
        | Except.ok (st2, rec2) => detailLoopGo html fuel st2 rec2 (div_end + 1)

/-- `extract_plant_data` (source lines 99-205): locate the
`<article id="plant-profile">` container (`nonePair` — the tuple
`(None, None)` — if absent), extract the first `<h1>` as `plant_name` and
the first `<h3>` after it as `plant_type` (the latter through
`strip_tags`), then collect the `plant-detail` blocks. -/
def extract_plant_data (html : List Char) : Except PyError ExtractResult :=
  match findArticle html with
  | none => Except.ok ExtractResult.nonePair
  | some end_of_tag =>
    let article_content := html.drop (end_of_tag + 1)
    let step1 : List (List Char × List Char) × Nat :=
      match findFrom article_content (pyStr "<h1") 0 with
      | none => ([], 0)
      | some open_h1 =>
        match findFrom article_content (pyStr ">") open_h1 with
        | none => ([], 0)
        | some tag_close =>
          match findFrom article_content (pyStr "</h1>") tag_close with
          | none => ([], tag_close + 1)
          | some close_h1 =>
            ([(pyStr "plant_name", pyStrip (pySlice article_content (tag_close + 1) close_h1))],
              close_h1 + 5)
    let step2 : List (List Char × List Char) × Nat :=
      match findFrom article_content (pyStr "<h3") step1.2 with
      | none => step1
      | some open_h3 =>
        match findFrom article_content (pyStr ">") open_h3 with
        | none => step1
        | some tag_close =>
          match findFrom article_content (pyStr "</h3>") tag_close with
          | none => step1
          | some close_h3 =>
            (dictSet step1.1 (pyStr "plant_type")
                (strip_tags (pyStrip (pySlice article_content (tag_close + 1) close_h3))),
              close_h3 + 5)
    match detailLoopGo html (html.length + 1) none step2.1 step2.2 with
    | Except.error e => Except.error e
    | Except.ok rec2 => Except.ok (ExtractResult.record rec2)

/-- One iteration of `main`'s link loop (source lines 275-292) for one link,
given the chunk stream its page fetch yields: `process_plant_page`, then
`extract_plant_data`, then the report/persist step.  When the fetch returned
`None`, `extract_plant_data(None)` raises `AttributeError` (`None` has no
`.find`); when extraction returned the tuple `(None, None)`, it passes the
`is not None and != {}` guard and `plant_info.items()` raises
`AttributeError` (a tuple has no `.items`).  Neither is caught anywhere. -/
def mainStep (pageStream : List (List Nat)) : Except PyError Unit :=
  match process_plant_page pageStream with
  | none => Except.error PyError.attributeError
  | some plant_html =>
    match extract_plant_data plant_html with
    | Except.error e => Except.error e
    | Except.ok ExtractResult.nonePair => Except.error PyError.attributeError
    | Except.ok (ExtractResult.record _) => Except.ok ()

/-- `main`'s traversal over the discovered links (source lines 275-292),
with each link's page fetch represented by its chunk stream.  Returns the
outcome and the number of links fully processed: an uncaught exception stops
the loop and leaves the remaining links unprocessed. -/
def mainRun : List (List (List Nat)) → Except PyError Unit × Nat
  | [] => (Except.ok (), 0)
  | s :: rest =>
    match mainStep s with
    | Except.error e => (Except.error e, 0)
    | Except.ok _ => ((mainRun rest).1, (mainRun rest).2 + 1)

/-! ### Lemmas about `strip_core` -/

/-- Outside a tag, angle-free text passes through `strip_core` unchanged. -/
theorem strip_core_outside (a : List Char) (h1 : '<' ∉ a) (h2 : '>' ∉ a)
    (rest : List Char) :
    strip_core (a ++ rest) false = a ++ strip_core rest false := by
  induction a with
  | nil => rfl
  | cons c t ih =>
    have hc1 : ¬c = '<' := fun h => h1 (h ▸ List.mem_cons_self _ _)
    have hc2 : ¬c = '>' := fun h => h2 (h ▸ List.mem_cons_self _ _)
    have ht1 : '<' ∉ t := fun h => h1 (List.mem_cons_of_mem _ h)
    have ht2 : '>' ∉ t := fun h => h2 (List.mem_cons_of_mem _ h)
    simp [strip_core, hc1, hc2, ih ht1 ht2]

/-- Inside a tag, text without `'>'` is skipped and the state stays in-tag. -/
theorem strip_core_inside (b : List Char) (h : '>' ∉ b) (rest : List Char) :
    strip_core (b ++ rest) true = strip_core rest true := by
  induction b with
  | nil => rfl
  | cons c t ih =>
    have hc : ¬c = '>' := fun hc => h (hc ▸ List.mem_cons_self _ _)
    have ht : '>' ∉ t := fun hx => h (List.mem_cons_of_mem _ hx)
    by_cases hlt : c = '<'
    · simp [strip_core, hlt, ih ht]
    · simp [strip_core, hlt, hc, ih ht]

/-- Angle-free text is a fixed point of the tag-removal pass. -/
theorem strip_core_id (a : List Char) (h1 : '<' ∉ a) (h2 : '>' ∉ a) :
    strip_core a false = a := by
  have := strip_core_outside a h1 h2 []
  simpa [strip_core] using this

/-- C6: `strip_tags` removes every substring between `'<'` and `'>'`
inclusive — any `'<'` enters the in-tag state and any `'>'` leaves it,
regardless of nesting — and trims leading/trailing whitespace; in
particular `strip_tags "a<b>c</b>d" = "acd"`, `strip_tags "<x>" = ""`, and
an unterminated `"<x"` strips to `""` with everything after the unmatched
`'<'` dropped. -/
theorem strip_tags_removes_tag_spans :
    (∀ a b c : List Char, '<' ∉ a → '>' ∉ a → '>' ∉ b →
      strip_tags (a ++ '<' :: (b ++ '>' :: c)) = pyStrip (a ++ strip_core c false)) ∧
    (∀ t : List Char, '>' ∉ t → strip_tags ('<' :: t) = []) ∧
    strip_tags (pyStr "a<b>c</b>d") = pyStr "acd" ∧
    strip_tags (pyStr "<x>") = [] ∧
    strip_tags (pyStr "<x") = [] := by
  refine ⟨?_, ?_, by decide, by decide, by decide⟩
  · intro a b c h1 h2 h3
    unfold strip_tags
    rw [strip_core_outside a h1 h2]
    show pyStrip (a ++ strip_core ('<' :: (b ++ '>' :: c)) false) = _
    rw [show strip_core ('<' :: (b ++ '>' :: c)) false = strip_core (b ++ '>' :: c) true from rfl,
      strip_core_inside b h3]
    rfl
  · intro t ht
    unfold strip_tags
    rw [show strip_core ('<' :: t) false = strip_core t true from rfl]
    have := strip_core_inside t ht []
    rw [List.append_nil] at this
    rw [this]
    rfl

/-- Witness for C6: the parts with hypotheses, at concrete inputs. -/
theorem strip_tags_removes_tag_spans_witness :
    strip_tags (pyStr "ab" ++ '<' :: (pyStr "i" ++ '>' :: pyStr "cd")) = pyStr "abcd" ∧
    strip_tags ('<' :: pyStr "xyz") = [] := by
  constructor
  · rw [strip_tags_removes_tag_spans.1 (pyStr "ab") (pyStr "i") (pyStr "cd")
      (by decide) (by decide) (by decide)]
    decide
  · rw [strip_tags_removes_tag_spans.2.1 (pyStr "xyz") (by decide)]

/-- C10: `strip_tags` also drops a `'>'` that occurs outside any tag, even
with no unmatched `'<'` before it: on angle-free `s` and `t`,
`strip_tags (s ++ ">" ++ t)` is the trimmed concatenation of `s` and `t`;
e.g. `strip_tags "a>b" = "ab"`. -/
theorem strip_tags_drops_stray_gt :
    (∀ s t : List Char, '<' ∉ s → '>' ∉ s → '<' ∉ t → '>' ∉ t →
      strip_tags (s ++ '>' :: t) = pyStrip (s ++ t)) ∧
    strip_tags (pyStr "a>b") = pyStr "ab" := by
  refine ⟨?_, by decide⟩
  intro s t hs1 hs2 ht1 ht2
  unfold strip_tags
  rw [strip_core_outside s hs1 hs2,
    show strip_core ('>' :: t) false = strip_core t false from rfl,
    strip_core_id t ht1 ht2]

/-- Witness for C10 at a concrete input. -/
theorem strip_tags_drops_stray_gt_witness :
    strip_tags (pyStr "ab" ++ '>' :: pyStr "cd") = pyStr "abcd" := by
  rw [strip_tags_drops_stray_gt.1 (pyStr "ab") (pyStr "cd")
    (by decide) (by decide) (by decide) (by decide)]
  decide

/-! ### Concrete behaviour of `extract_plant_data` -/

/-- C1 (code bug): on markup with no `<article id="plant-profile">` tag,
`extract_plant_data` does not return an empty record — it returns the
Python tuple `(None, None)` (the source's `return None, None`), a
differently shaped value that `main`'s `is not None and != {}` guard does
not recognise. -/
theorem extract_no_article_returns_pair :
    extract_plant_data (pyStr "<p>hi</p>") = Except.ok ExtractResult.nonePair := by decide

/-- C7: `extract_plant_data` on the profile markup for Ficus yields
`plant_name = "Ficus"` and `plant_type = "Ficus lyrata"`, with the nested
`<i>` markup stripped from the species value. -/
theorem extract_ficus_profile :
    extract_plant_data
        (pyStr "<article id=\"plant-profile\"><h1>Ficus</h1><h3>Ficus <i>lyrata</i></h3></article>") =
      Except.ok (ExtractResult.record
        [(pyStr "plant_name", pyStr "Ficus"), (pyStr "plant_type", pyStr "Ficus lyrata")]) := by
  decide

/-- A profile page with two detail blocks: the first block's `<img>` has a
`src` yielding the identifier `water`; the second block's `<img>` has
neither `src` nor `alt`, but the block has a `<span>` label. -/
def htmlStaleIdent : List Char :=
  pyStr "<article id=\"plant-profile\"><h1>A</h1><h3>B</h3><div class=\"plant-detail\"><img src=\"/i/water.png\"><span>Daily</span></div><div class=\"plant-detail\"><img class=\"x\"><span>Weekly</span></div>"

/-- A profile page whose single detail block has an `<img>` with neither
`src` nor `alt`, together with a `<span>` label. -/
def htmlUnsetIdent : List Char :=
  pyStr "<article id=\"plant-profile\"><h1>A</h1><h3>B</h3><div class=\"plant-detail\"><img class=\"x\"><span>Daily</span></div>"

set_option maxRecDepth 40000 in
/-- C3 (code bug): a detail block with no usable identifier does not
contribute nothing.  Because the source tests `'identifier' not in locals()`,
the local `identifier` persists across loop iterations: on
`htmlStaleIdent` the second block's span value `"Weekly"` is written under
the first block's identifier `water` (overwriting `"Daily"`), and on
`htmlUnsetIdent`, where no block ever set `identifier`,
`return_data[identifier] = value` raises `NameError` and aborts the
extraction. -/
theorem detail_block_stale_identifier :
    extract_plant_data htmlStaleIdent =
      Except.ok (ExtractResult.record
        [(pyStr "plant_name", pyStr "A"), (pyStr "plant_type", pyStr "B"),
         (pyStr "water", pyStr "Weekly")]) ∧
    extract_plant_data htmlUnsetIdent = Except.error PyError.nameError := by
  constructor
  · decide
  · decide

/-! ### Behaviour of `main`'s link traversal -/

/-- The chunk stream of a page whose single chunk holds a full valid
profile. -/
def goodPage : List (List Nat) :=
  [asciiBytes "<article id=\"plant-profile\"><h1>Ficus</h1><h3>Ficus <i>lyrata</i></h3></article>"]

/-- The chunk stream of a page none of whose chunks contains `"<h1"`. -/
def noSignalPage : List (List Nat) := [asciiBytes "<p>nothing here</p>"]

/-- The chunk stream of a page that contains `"<h1"` but no
`<article id="plant-profile">` container. -/
def noArticlePage : List (List Nat) := [asciiBytes "<h1>Plant</h1>"]

/-- C2 (code bug): a per-link extraction failure is not isolated.  When a
link's stream has no chunk containing `"<h1"`, `process_plant_page` returns
`None` and `extract_plant_data(None)` raises an uncaught `AttributeError`;
when a fetched page has no profile container, the returned tuple
`(None, None)` makes `plant_info.items()` raise an uncaught
`AttributeError`.  Either aborts `main`'s loop with the remaining links
unprocessed (count 0), whereas the same traversal completes (count 2) when
every page is well-formed. -/
theorem main_traversal_aborts_on_bad_link :
    mainRun [noSignalPage, goodPage] = (Except.error PyError.attributeError, 0) ∧
    mainRun [noArticlePage, goodPage] = (Except.error PyError.attributeError, 0) ∧
    mainRun [goodPage, goodPage] = (Except.ok (), 2) := by
  refine ⟨by decide, by decide, by decide⟩

/-- C9: `extract_plant_data` is deterministic — it reads no global or
mutable state, so identical inputs give identical records. -/
theorem extract_plant_data_deterministic (h₁ h₂ : List Char) (he : h₁ = h₂) :
    extract_plant_data h₁ = extract_plant_data h₂ := by rw [he]

/-- Witness for C9 at a concrete input. -/
theorem extract_plant_data_deterministic_witness :
    extract_plant_data (pyStr "<p>x</p>") = extract_plant_data (pyStr "<p>x</p>") :=
  extract_plant_data_deterministic (pyStr "<p>x</p>") (pyStr "<p>x</p>") rfl

/-! ### The streaming fetch: first-signal-chunk result and resource release -/

/-- On a stream of nonempty chunks, the fetch loop's result is the first
chunk that `process_plant_chunk` accepts. -/
theorem run_result_eq_findSome (chunks : List (List Nat))
    (hne : ∀ c ∈ chunks, c ≠ ([] : List Nat)) :
    (process_plant_page_run chunks).1 = chunks.findSome? process_plant_chunk := by
  induction chunks with
  | nil => rfl
  | cons c rest ih =>
    have hc : ¬c = [] := hne c (List.mem_cons_self _ _)
    have ih' := ih fun x hx => hne x (List.mem_cons_of_mem _ hx)
    cases hpc : process_plant_chunk c with
    | some d => simp [process_plant_page_run, hc, List.findSome?_cons, hpc]
    | none => simp [process_plant_page_run, hc, List.findSome?_cons, hpc, ih']

/-- On a stream of nonempty chunks that contains a matching chunk, the loop
performs exactly one `read` per skipped chunk plus one for the match: the
chunks after the first matching one are never requested. -/
theorem run_reads_stop_at_match (chunks : List (List Nat))
    (hne : ∀ c ∈ chunks, c ≠ ([] : List Nat))
    (hm : (chunks.findSome? process_plant_chunk).isSome = true) :
    numReads chunks =
      (chunks.takeWhile fun c => (process_plant_chunk c).isNone).length + 1 := by
  induction chunks with
  | nil => simp [List.findSome?] at hm
  | cons c rest ih =>
    have hc : ¬c = [] := hne c (List.mem_cons_self _ _)
    cases hpc : process_plant_chunk c with
    | some d =>
      simp [numReads, process_plant_page_run, hc, hpc, isReadEv, List.takeWhile_cons]
    | none =>
      rw [List.findSome?_cons, hpc] at hm
      have ih' := ih (fun x hx => hne x (List.mem_cons_of_mem _ hx)) hm
      simp only [numReads, process_plant_page_run, if_neg hc, hpc] at ih' ⊢
      simp [List.filter_cons, isReadEv, List.takeWhile_cons, hpc, ih']

/-- C5: `process_plant_page` returns the decoded text of the first chunk
that both decodes as UTF-8 and contains `"<h1"`; a chunk that fails to
decode is a non-match and is skipped; no chunk after the first matching one
is read; and a stream with no matching chunk yields `None`. -/
theorem fetch_returns_first_signal_chunk (chunks : List (List Nat))
    (hne : ∀ c ∈ chunks, c ≠ ([] : List Nat)) :
    process_plant_page chunks = chunks.findSome? process_plant_chunk ∧
    ((chunks.findSome? process_plant_chunk).isSome = true →
      numReads chunks =
        (chunks.takeWhile fun c => (process_plant_chunk c).isNone).length + 1) ∧
    (∀ c : List Nat, utf8Decode c = none → process_plant_chunk c = none) ∧
    (chunks.findSome? process_plant_chunk = none → process_plant_page chunks = none) := by
  refine ⟨run_result_eq_findSome chunks hne, run_reads_stop_at_match chunks hne, ?_, ?_⟩
  · intro c h
    simp [process_plant_chunk, h]
  · intro h
    rw [show process_plant_page chunks = (process_plant_page_run chunks).1 from rfl,
      run_result_eq_findSome chunks hne, h]

/-- The five-chunk stream of the spec's example: the signal `"<h1"` appears
only in the third chunk; the second chunk is invalid UTF-8. -/
def fiveChunkStream : List (List Nat) :=
  [asciiBytes "intro text", [0xFF, 0x41], asciiBytes "<h1>Ficus", asciiBytes "tail one",
   asciiBytes "tail two"]

/-- Witness for C5: on the five-chunk stream the result is the third chunk
and only three chunks are read — the fourth and fifth are never requested. -/
theorem fetch_returns_first_signal_chunk_witness :
    process_plant_page fiveChunkStream = some (pyStr "<h1>Ficus") ∧
    numReads fiveChunkStream = 3 := by
  obtain ⟨h1, h2, _, _⟩ := fetch_returns_first_signal_chunk fiveChunkStream (by decide)
  constructor
  · rw [h1]; decide
  · rw [h2 (by decide)]; decide

/-- C8: on every input stream — match found, stream exhausted, or decode
failures along the way — `process_plant_page` calls `response.close()`
exactly once, as the final action before returning. -/
theorem fetch_releases_stream_once (chunks : List (List Nat)) :
    ∃ pre, (process_plant_page_run chunks).2 = pre ++ [FetchEv.closeConn] ∧
      FetchEv.closeConn ∉ pre := by
  induction chunks with
  | nil => exact ⟨[FetchEv.readChunk []], rfl, by simp⟩
  | cons c rest ih =>
    by_cases hc : c = []
    · exact ⟨[FetchEv.readChunk c], by simp [process_plant_page_run, hc], by simp⟩
    · cases hpc : process_plant_chunk c with
      | some d =>
        exact ⟨[FetchEv.readChunk c], by simp [process_plant_page_run, hc, hpc], by simp⟩
      | none =>
        obtain ⟨pre, hpre, hnot⟩ := ih
        refine ⟨FetchEv.readChunk c :: pre, ?_, ?_⟩
        · simp [process_plant_page_run, hc, hpc, hpre]
        · simp [hnot]

/-! ### Link discovery: `findFrom` characterisation and the scan lemma -/

/-- A successful `find?` splits the list at the first hit. -/
theorem find?_splits {α : Type} (f : α → Bool) :
    ∀ (l : List α) (a : α), l.find? f = some a →
      ∃ l1 l2, l = l1 ++ a :: l2 ∧ (∀ b ∈ l1, f b = false) ∧ f a = true := by
  intro l
  induction l with
  | nil => intro a h; simp [List.find?] at h
  | cons c t ih =>
    intro a h
    by_cases hc : f c = true
    · rw [List.find?_cons_of_pos _ hc] at h
      cases Option.some.inj h
      exact ⟨[], t, rfl, by simp, hc⟩
    · rw [List.find?_cons_of_neg _ hc] at h
      obtain ⟨l1, l2, hl, hfail, hfa⟩ := ih a h
      exact ⟨c :: l1, l2, by simp [hl], by
        intro b hb
        rcases List.mem_cons.mp hb with rfl | hb
        · exact Bool.not_eq_true _ ▸ (by simpa using hc)
        · exact hfail b hb, hfa⟩

/-- Position bounds of a successful `findFrom`. -/
theorem findFrom_bounds {s pat : List Char} {start i : Nat}
    (h : findFrom s pat start = some i) :
    start ≤ i ∧ i + pat.length ≤ s.length := by
  have hp := List.find?_some h
  have hmem := List.mem_of_find?_eq_some h
  rw [List.mem_range] at hmem
  rw [Bool.and_eq_true, decide_eq_true_eq] at hp
  exact ⟨hp.1, by omega⟩

/-- A successful `findFrom` is an occurrence at or after `start`, and the
least such occurrence. -/
theorem findFrom_first {s pat : List Char} {start i : Nat}
    (h : findFrom s pat start = some i) :
    i ∈ occList s pat ∧ start ≤ i ∧
      ∀ q ∈ occList s pat, start ≤ q → i ≤ q := by
  have hp := List.find?_some h
  have hmem := List.mem_of_find?_eq_some h
  rw [Bool.and_eq_true, decide_eq_true_eq] at hp
  refine ⟨List.mem_filter.mpr ⟨hmem, hp.2⟩, hp.1, ?_⟩
  intro q hq hsq
  by_contra hlt
  push_neg at hlt
  obtain ⟨l1, l2, hl, hfail, _⟩ := find?_splits _ _ _ h
  have hqmem : q ∈ List.range (s.length + 1 - pat.length) := (List.mem_filter.mp hq).1
  have hqpre : isPrefixAt pat s q = true := (List.mem_filter.mp hq).2
  -- `q < i` must sit in the failing prefix `l1` of the range list.
  have hpair : (List.range (s.length + 1 - pat.length)).Pairwise (· < ·) :=
    List.pairwise_lt_range _
  rw [hl] at hqmem hpair
  rcases List.mem_append.mp hqmem with hq1 | hq2
  · have := hfail q hq1
    simp [hsq, hqpre] at this
  · rcases List.mem_cons.mp hq2 with rfl | hq3
    · omega
    · have := (List.pairwise_append.mp hpair).2.1
      have : i < q := (List.pairwise_cons.mp this).1 q hq3
      omega

/-- A failed `findFrom` means there is no occurrence at or after `start`. -/
theorem findFrom_none {s pat : List Char} {start : Nat}
    (h : findFrom s pat start = none) :
    ∀ q ∈ occList s pat, ¬start ≤ q := by
  intro q hq hsq
  have hqmem : q ∈ List.range (s.length + 1 - pat.length) := (List.mem_filter.mp hq).1
  have hqpre : isPrefixAt pat s q = true := (List.mem_filter.mp hq).2
  have := List.find?_eq_none.mp h q hqmem
  rw [Bool.and_eq_true, decide_eq_true_eq] at this
  exact this ⟨hsq, hqpre⟩

/-- `sepOK` is preserved by taking the tail. -/
theorem sepOK_tail {K : Nat} {a : Nat} {t : List Nat} (h : sepOK K (a :: t) = true) :
    sepOK K t = true := by
  cases t with
  | nil => rfl
  | cons b t' =>
    rw [show sepOK K (a :: b :: t') = (decide (a + K ≤ b) && sepOK K (b :: t')) from rfl,
      Bool.and_eq_true] at h
    exact h.2

/-- In a strictly increasing list whose consecutive entries are at least
`K > 0` apart, filtering by `start ≤ ·` where `p` is the least entry
`≥ start` picks `p` and then exactly the entries `≥ p + K`. -/
theorem filter_head_sep {K : Nat} (hK : 0 < K) :
    ∀ (O : List Nat) (p start : Nat), O.Pairwise (· < ·) → sepOK K O = true →
      p ∈ O → start ≤ p → (∀ q ∈ O, start ≤ q → p ≤ q) →
      O.filter (fun q => decide (start ≤ q)) =
        p :: O.filter (fun q => decide (p + K ≤ q)) := by
  intro O
  induction O with
  | nil => intro p start _ _ hp; cases hp
  | cons a t ih =>
    intro p start hpw hsep hp hsp hmin
    by_cases ha : start ≤ a
    · have hpa : p = a := by
        have h1 : p ≤ a := hmin a (List.mem_cons_self _ _) ha
        rcases List.mem_cons.mp hp with rfl | hpt
        · rfl
        · have : a < p := (List.pairwise_cons.mp hpw).1 p hpt
          omega
      subst hpa
      rw [List.filter_cons, List.filter_cons, if_pos (by simpa using ha),
        if_neg (by simp; omega)]
      congr 1
      cases t with
      | nil => rfl
      | cons b t' =>
        have hab : p + K ≤ b := by
          rw [show sepOK K (p :: b :: t') = (decide (p + K ≤ b) && sepOK K (b :: t')) from rfl,
            Bool.and_eq_true, decide_eq_true_eq] at hsep
          exact hsep.1
        have hall : ∀ x ∈ b :: t', p + K ≤ x := by
          intro x hx
          rcases List.mem_cons.mp hx with rfl | hx'
          · exact hab
          · have : b < x := (List.pairwise_cons.mp (List.pairwise_cons.mp hpw).2).1 x hx'
            omega
        rw [List.filter_eq_self.mpr fun x hx => by
            have := hall x hx
            simp only [decide_eq_true_eq]
            omega,
          List.filter_eq_self.mpr fun x hx => by
            have := hall x hx
            simp only [decide_eq_true_eq]
            exact this]
    · have hpt : p ∈ t := by
        rcases List.mem_cons.mp hp with rfl | hpt
        · exact absurd hsp ha
        · exact hpt
      rw [List.filter_cons, List.filter_cons, if_neg (by simpa using ha),
        if_neg (by simp; omega)]
      exact ih p start (List.pairwise_cons.mp hpw).2 (sepOK_tail hsep) hpt hsp
        fun q hq => hmin q (List.mem_cons_of_mem _ hq)

/-- The occurrence list is strictly increasing. -/
theorem occList_pairwise (s pat : List Char) : (occList s pat).Pairwise (· < ·) :=
  List.Pairwise.filter _ (List.pairwise_lt_range _)

/-- The id scan visits exactly the occurrences at or after `start` when the
occurrences are separated by at least `pat.length + 8`, slicing the 8
characters after each. -/
theorem findIdsGo_eq_occs (html pat : List Char)
    (hsep : sepOK (pat.length + 8) (occList html pat) = true) :
    ∀ (fuel start : Nat), html.length + 1 - start ≤ fuel →
      findIdsGo html pat fuel start =
        ((occList html pat).filter (fun q => decide (start ≤ q))).map
          (fun p => pySlice html (p + pat.length) (p + pat.length + 8)) := by
  intro fuel
  induction fuel with
  | zero =>
    intro start hf
    rw [show findIdsGo html pat 0 start = [] from rfl,
      List.filter_eq_nil_iff.mpr fun q hq => ?_]
    · rfl
    · have : q ∈ List.range (html.length + 1 - pat.length) := (List.mem_filter.mp hq).1
      rw [List.mem_range] at this
      simp only [decide_eq_true_eq]
      omega
  | succ fuel ih =>
    intro start hf
    cases hfind : findFrom html pat start with
    | none =>
      rw [show findIdsGo html pat (fuel + 1) start =
          (match findFrom html pat start with
           | none => []
           | some p =>
             pySlice html (p + pat.length) (p + pat.length + 8) ::
               findIdsGo html pat fuel (p + pat.length + 8)) from rfl,
        hfind, List.filter_eq_nil_iff.mpr fun q hq => by
          simpa using findFrom_none hfind q hq]
      rfl
    | some p =>
      obtain ⟨hjb1, hjb2⟩ := findFrom_bounds hfind
      obtain ⟨hocc, hsp, hmin⟩ := findFrom_first hfind
      have hstep : findIdsGo html pat (fuel + 1) start =
          pySlice html (p + pat.length) (p + pat.length + 8) ::
            findIdsGo html pat fuel (p + pat.length + 8) := by
        rw [show findIdsGo html pat (fuel + 1) start =
            (match findFrom html pat start with
             | none => []
             | some p =>
               pySlice html (p + pat.length) (p + pat.length + 8) ::
                 findIdsGo html pat fuel (p + pat.length + 8)) from rfl,
          hfind]
      rw [hstep, ih (p + pat.length + 8) (by omega),
        filter_head_sep (by omega) (occList html pat) p start
          (occList_pairwise html pat) hsep hocc hsp hmin]
      simp only [List.map_cons, Nat.add_assoc]

/-- C4 (counterexample): a listing text containing 2 occurrences of the
marker `"u/plants/"` for which `find_plant_links` returns only 1 link — the
second occurrence begins inside the 8-character identifier slice of the
first, and the scan resumes past it. -/
theorem find_plant_links_misses_occurrence :
    countOcc (pyStr "u/plants/u/plants/XYZWVUTS") (pyStr "u" ++ pyStr "/plants/") = 2 ∧
    (find_plant_links (pyStr "u/plants/u/plants/XYZWVUTS") (pyStr "u")).length = 1 := by
  refine ⟨by decide, by decide⟩

/-- C4 (amended): when no marker occurrence begins within
`marker.length + 8` characters of the start of the previous occurrence
(so no occurrence lies inside a consumed identifier slice),
`find_plant_links` returns exactly one link per occurrence, in order, and
each link embeds verbatim the (up to) 8 characters immediately following
its occurrence, with no delimiter or character-class check. -/
theorem find_plant_links_separated (html username : List Char)
    (hsep : sepOK ((username ++ pyStr "/plants/").length + 8)
      (occList html (username ++ pyStr "/plants/")) = true) :
    find_plant_links html username =
      (occList html (username ++ pyStr "/plants/")).map (fun p =>
        pyStr "http://greg.app/" ++ username.map Char.toLower ++ pyStr "/plants/" ++
          pySlice html (p + (username ++ pyStr "/plants/").length)
            (p + (username ++ pyStr "/plants/").length + 8) ++ pyStr "/") ∧
    (find_plant_links html username).length =
      countOcc html (username ++ pyStr "/plants/") := by
  have hmain : find_plant_links html username =
      (occList html (username ++ pyStr "/plants/")).map (fun p =>
        pyStr "http://greg.app/" ++ username.map Char.toLower ++ pyStr "/plants/" ++
          pySlice html (p + (username ++ pyStr "/plants/").length)
            (p + (username ++ pyStr "/plants/").length + 8) ++ pyStr "/") := by
    unfold find_plant_links
    rw [findIdsGo_eq_occs html (username ++ pyStr "/plants/") hsep (html.length + 1) 0
        (by omega),
      List.filter_eq_self.mpr fun q _ => by simp, List.map_map]
    rfl
  exact ⟨hmain, by rw [hmain, List.length_map]; rfl⟩

/-- Witness for C4 (amended): two separated occurrences give exactly two
links with the literal following 8 characters as identifiers. -/
theorem find_plant_links_separated_witness :
    find_plant_links (pyStr "u/plants/AAAAAAAA u/plants/BBBBBBBB") (pyStr "u") =
      [pyStr "http://greg.app/u/plants/AAAAAAAA/",
       pyStr "http://greg.app/u/plants/BBBBBBBB/"] ∧
    (find_plant_links (pyStr "u/plants/AAAAAAAA u/plants/BBBBBBBB") (pyStr "u")).length =
      countOcc (pyStr "u/plants/AAAAAAAA u/plants/BBBBBBBB") (pyStr "u" ++ pyStr "/plants/") := by
  obtain ⟨h1, h2⟩ := find_plant_links_separated
    (pyStr "u/plants/AAAAAAAA u/plants/BBBBBBBB") (pyStr "u") (by decide)
  exact ⟨by rw [h1]; decide, h2⟩
